import Mathlib

/-!
# OrbitalViz backend — verification development

Shallow embedding of `src/backend/main.py` (FastAPI backend serving
molecular-orbital grids as binary buffers), together with theorems
checking the natural-language specification against it.

Modelling conventions:
* Real-valued numeric computation (numpy float64 arithmetic) is modelled
  over `ℚ`; the lossy cast to 32-bit floats at serialization time is an
  abstract bit-pattern function `f32 : ℚ → ℕ` (the IEEE-754 binary32
  pattern), a parameter of every encoder.
* Byte buffers are `List ℕ` with every element a byte value; `struct.pack`
  integer/float fields become 4-byte groups, parametrised on byte order.
  The platform's native byte order (used by format strings without an
  explicit `<` prefix and by numpy `tobytes`) is a `Bool` parameter
  `le` (`true` = little-endian platform).
* Python dicts are insertion-ordered association lists; Python's stable
  `sorted` is a stable insertion sort.
-/

namespace OrbitalViz

/-! ## Byte-level serialization (struct.pack semantics) -/

/-- Little-endian byte decomposition of `w % 2^32`. -/
def bytesLE32 (w : ℕ) : List ℕ :=
  [w % 2 ^ 32 % 256, w % 2 ^ 32 / 256 % 256, w % 2 ^ 32 / 2 ^ 16 % 256, w % 2 ^ 32 / 2 ^ 24 % 256]

/-- One 32-bit word as 4 bytes in the byte order given by `le`
(`true` = little-endian). -/
def word32 (le : Bool) (w : ℕ) : List ℕ :=
  if le then bytesLE32 w else (bytesLE32 w).reverse

/-- A signed 32-bit integer field (`struct` format `i`): two's-complement
bit pattern, then `word32`. -/
def int32 (le : Bool) (v : ℤ) : List ℕ :=
  word32 le ((v % (2 ^ 32 : ℤ)).toNat)

/-- Recompose a 4-byte group into its 32-bit word value. -/
def wordOfBytes (le : Bool) (b : List ℕ) : ℕ :=
  match (if le then b else b.reverse) with
  | [b0, b1, b2, b3] => b0 + 256 * b1 + 2 ^ 16 * b2 + 2 ^ 24 * b3
  | _ => 0

/-- Signed interpretation of a 32-bit word (two's complement). -/
def decodeInt32 (w : ℕ) : ℤ :=
  if w < 2 ^ 31 then (w : ℤ) else (w : ℤ) - 2 ^ 32

/-- Read `n` consecutive 32-bit words off the front of a byte buffer. -/
def readWords (le : Bool) : ℕ → List ℕ → Option (List ℕ × List ℕ)
  | 0, buf => some ([], buf)
  | n + 1, buf =>
    if buf.length < 4 then none
    else
      match readWords le n (buf.drop 4) with
      | some (ws, rest) => some (wordOfBytes le (buf.take 4) :: ws, rest)
      | none => none

theorem bytesLE32_length (w : ℕ) : (bytesLE32 w).length = 4 := rfl

theorem word32_length (le : Bool) (w : ℕ) : (word32 le w).length = 4 := by
  cases le <;> simp [word32, bytesLE32]

theorem int32_length (le : Bool) (v : ℤ) : (int32 le v).length = 4 :=
  word32_length le _

theorem wordOfBytes_word32 (le : Bool) (w : ℕ) :
    wordOfBytes le (word32 le w) = w % 2 ^ 32 := by
  have h : w % 2 ^ 32 % 256 + 256 * (w % 2 ^ 32 / 256 % 256) +
      2 ^ 16 * (w % 2 ^ 32 / 2 ^ 16 % 256) + 2 ^ 24 * (w % 2 ^ 32 / 2 ^ 24 % 256)
      = w % 2 ^ 32 := by omega
  cases le <;> simpa [word32, wordOfBytes, bytesLE32] using h

theorem readWords_concat (le : Bool) (ws : List ℕ) (rest : List ℕ) :
    readWords le ws.length ((ws.map (word32 le)).flatten ++ rest) =
      some (ws.map (· % 2 ^ 32), rest) := by
  induction ws with
  | nil => simp [readWords]
  | cons w t ih =>
    have hlen : (word32 le w).length = 4 := word32_length le w
    have hbig : 4 ≤ ((word32 le w :: t.map (word32 le)).flatten ++ rest).length := by
      simp [List.length_append, hlen]
    simp only [List.map_cons, List.flatten_cons, List.length_cons, readWords,
      List.append_assoc]
    rw [if_neg (by simpa using by omega : ¬ ((word32 le w ++ ((t.map (word32 le)).flatten ++ rest)).length < 4))]
    rw [List.take_append_of_le_length (by omega), List.drop_append_of_le_length (by omega)]
    rw [List.take_of_length_le (le_of_eq hlen), List.drop_of_length_le (le_of_eq hlen)]
    simp only [List.nil_append, ih]
    simp [wordOfBytes_word32]

/-! ## Data model

`Mat` models a numpy 2-D array (AO-count rows × MO-count columns) of real
values; `SolveResult` models one entry of the `_cached_mcscf` dict
(the cached `mol` object is represented by the pieces the handlers read
from it: `atom_coords()`, `eval_gto`, `ao_labels`). -/

structure Mat where
  rows : ℕ
  cols : ℕ
  entry : ℕ → ℕ → ℚ

/-- Column `j` of a matrix, as the coefficient vector list. -/
def Mat.col (m : Mat) (j : ℕ) : List ℚ :=
  (List.range m.rows).map fun r => m.entry r j

/-- One entry of `MOLECULE_PRESETS`. -/
structure Preset where
  name : String
  atom : String
  basis : String
  ncas : ℕ
  nelecas : ℕ

/-- One `ao_labels` entry: `(atom_idx, element, orb_type, m_label)`. -/
structure AoLabel where
  atom_idx : ℕ
  element : String
  orb_type : String
  m_label : String

/-- One value of the `_cached_mcscf` dict: the solved molecule.
The external collaborators (pyscf `mol` object and solver output) are
carried as data/functions read by the handlers. -/
structure SolveResult where
  atomCoords : List (ℚ × ℚ × ℚ)
  aoEval : ℚ × ℚ × ℚ → List ℚ
  aoLabels : List AoLabel
  natorbs : Mat
  occupations : List ℚ
  energy : ℚ

/-- Observable events emitted while a request is served: external solver
invocations and grid-sampling (`evaluate_orbital_on_grid`) invocations. -/
inductive Ev where
  | solve (id : String)
  | sample
deriving DecidableEq, Repr

/-- An HTTP response: a 200 binary response with headers, or a 400
plain-text rejection. -/
inductive Resp where
  | ok (body : List ℕ) (headers : List (String × String))
  | badRequest (msg : String)
deriving DecidableEq, Repr

/-- Body bytes of an `ok` response (empty for a rejection). -/
def Resp.okBody : Resp → List ℕ
  | .ok body _ => body
  | .badRequest _ => []

def Resp.isOk : Resp → Bool
  | .ok _ _ => true
  | .badRequest _ => false

/-- The in-process cache `_cached_mcscf`, as an insertion-ordered
association list (Python dict semantics). -/
abbrev Cache := List (String × SolveResult)

/-- Association-list lookup (Python `d.get(k)` / `k in d`). -/
def alookup {α : Type} (l : List (String × α)) (k : String) : Option α :=
  match l with
  | [] => none
  | (k', v) :: t => if k = k' then some v else alookup t k

/-- The external solver pipeline (pyscf RHF → CASSCF → `cas_natorb`):
an opaque deterministic function of the molecule id's preset, producing
the dict entry stored in the cache. -/
def Solver := String → Preset → SolveResult

/-! ## SolveCache: `get_mcscf_results` -/

/-- Embeds `get_mcscf_results` (src/backend/main.py lines 62–80): return
the cached entry if present; otherwise look the id up in the preset
registry, fail with `Unknown molecule` if absent, else run the solver,
store the result keyed by id and return it.  Also returns the updated
cache and the trace of solver invocations. -/
def get_mcscf_results (solver : Solver) (registry : List (String × Preset))
    (cache : Cache) (molecule_id : String) :
    Except String (SolveResult × Cache × List Ev) :=
  match alookup cache molecule_id with
  | some r => .ok (r, cache, [])
  | none =>
    match alookup registry molecule_id with
    | none => .error ("Unknown molecule: " ++ molecule_id)
    | some preset =>
      let r := solver molecule_id preset
      .ok (r, cache ++ [(molecule_id, r)], [.solve molecule_id])

/-! ## GridSampler: bounds, linspace, grid enumeration, evaluation -/

/-- Embeds `get_grid_bounds` (lines 83–88): per-axis
`np.min(coords, axis=0) - margin` and `np.max(coords, axis=0) + margin`.
numpy raises on an empty coordinate array; the model returns zero bounds
there and is only ever used on non-empty geometries. -/
def get_grid_bounds (coords : List (ℚ × ℚ × ℚ)) (margin : ℚ) :
    (ℚ × ℚ × ℚ) × (ℚ × ℚ × ℚ) :=
  match coords with
  | [] => ((0, 0, 0), (0, 0, 0))
  | c :: t =>
    let mn := t.foldl (fun a p => (min a.1 p.1, min a.2.1 p.2.1, min a.2.2 p.2.2)) c
    let mx := t.foldl (fun a p => (max a.1 p.1, max a.2.1 p.2.1, max a.2.2 p.2.2)) c
    ((mn.1 - margin, mn.2.1 - margin, mn.2.2 - margin),
     (mx.1 + margin, mx.2.1 + margin, mx.2.2 + margin))

/-- Embeds `np.linspace(a, b, g)` over exact rationals: `g` points
`a + (b-a)/(g-1) * i`, with the final point set to `b` exactly when
`g > 1` (numpy assigns the endpoint explicitly). For `g = 1` numpy
returns `[a]`; the `ℚ` convention `x / 0 = 0` gives the same value. -/
def linspace (a b : ℚ) (g : ℕ) : List ℚ :=
  (List.range g).map fun i =>
    if 1 < g ∧ i = g - 1 then b else a + (b - a) / ((g : ℚ) - 1) * (i : ℚ)

/-- Embeds lines 234–239 / 316–320: the meshgrid with `indexing='ij'`,
ravelled in C order and column-stacked — the Cartesian product of the
three axes with `x` varying slowest and `z` fastest. -/
def gridPoints (g : ℕ) (mins maxs : ℚ × ℚ × ℚ) : List (ℚ × ℚ × ℚ) :=
  let xs := linspace mins.1 maxs.1 g
  let ys := linspace mins.2.1 maxs.2.1 g
  let zs := linspace mins.2.2 maxs.2.2 g
  xs.flatMap fun x => ys.flatMap fun y => zs.map fun z => (x, y, z)

/-- Dot product of two coefficient lists. -/
def dotQ (u v : List ℚ) : ℚ := (List.zipWith (· * ·) u v).sum

/-- Embeds `evaluate_orbital_on_grid` (lines 91–95): evaluate all AO
basis functions at each point and contract with the orbital coefficient
vector. -/
def evaluate_orbital_on_grid (aoEval : ℚ × ℚ × ℚ → List ℚ)
    (mo_coeff : List ℚ) (grid_points : List (ℚ × ℚ × ℚ)) : List ℚ :=
  grid_points.map fun p => dotQ (aoEval p) mo_coeff

/-- numpy column indexing `natorbs[:, i]` including the negative-index
convention: a negative `i` counts from the end.  (numpy raises outside
`[-cols, cols)`; the model is used only on that range.) -/
def npColIndex (cols : ℕ) (i : ℤ) : ℕ :=
  (if i < 0 then (cols : ℤ) + i else i).toNat

def npCol (m : Mat) (i : ℤ) : List ℚ :=
  m.col (npColIndex m.cols i)

/-! ## GridCodec + RequestHandlers -/

/-- Serialize a list of real values as consecutive 32-bit floats
(numpy `astype(np.float32).tobytes()`, native byte order `le`), via the
abstract IEEE-754 binary32 bit-pattern function `f32`. -/
def floatBytes (f32 : ℚ → ℕ) (le : Bool) (vals : List ℚ) : List ℕ :=
  (vals.map fun v => word32 le (f32 v)).flatten

/-- Embeds `struct.pack` for a format of `ints` consecutive `i` fields
followed by `floats` consecutive `f` fields (no padding: both field
types are 4-byte aligned), in byte order `le`. -/
def packIF (f32 : ℚ → ℕ) (le : Bool) (ints : List ℤ) (floats : List ℚ) : List ℕ :=
  (ints.map (int32 le)).flatten ++ floatBytes f32 le floats

/-- Embeds the handler `get_orbital_data` (lines 209–264).
`le` is the platform's native byte order: the header format `'3i6f'`
carries no byte-order prefix and numpy `tobytes` emits native order, so
both sections depend on it.  Returns the response, the updated cache
and the trace of solver/sampler invocations.  The `isovalue` query
parameter is accepted and never read, as in the source. -/
def get_orbital_data (f32 : ℚ → ℕ) (le : Bool) (solver : Solver)
    (registry : List (String × Preset)) (cache : Cache)
    (orbital_index : ℤ) (grid_size : ℕ) (margin : ℚ)
    (isovalue : Option ℚ) (molecule : String) :
    Except String (Resp × Cache × List Ev) :=
  match get_mcscf_results solver registry cache molecule with
  | .error e => .error e
  | .ok (results, cache, ev) =>
    let natorbs := results.natorbs
    if (natorbs.cols : ℤ) ≤ orbital_index then
      .ok (.badRequest ("Orbital index " ++ toString orbital_index ++ " out of range"),
           cache, ev)
    else
      let bounds := get_grid_bounds results.atomCoords margin
      let min_coords := bounds.1
      let max_coords := bounds.2
      let grid_points := gridPoints grid_size min_coords max_coords
      let mo_coeff := npCol natorbs orbital_index
      let orbital_values := evaluate_orbital_on_grid results.aoEval mo_coeff grid_points
      let binary_data := floatBytes f32 le orbital_values
      let header := packIF f32 le
        [(grid_size : ℤ), (grid_size : ℤ), (grid_size : ℤ)]
        [min_coords.1, min_coords.2.1, min_coords.2.2,
         max_coords.1, max_coords.2.1, max_coords.2.2]
      .ok (.ok (header ++ binary_data)
             [("X-Grid-Size", toString grid_size),
              ("X-Min-Coords", toString min_coords.1 ++ "," ++ toString min_coords.2.1
                ++ "," ++ toString min_coords.2.2),
              ("X-Max-Coords", toString max_coords.1 ++ "," ++ toString max_coords.2.1
                ++ "," ++ toString max_coords.2.2)],
           cache, ev ++ [.sample])

/-- First invalid entry of a batch index list, per the validation loop
at lines 307–312 (`idx < 0 or idx >= cols`, first offender reported). -/
def firstBadIndex (cols : ℕ) (idxs : List ℤ) : Option ℤ :=
  idxs.find? fun idx => decide (idx < 0) || decide ((cols : ℤ) ≤ idx)

/-- Embeds the handler `get_orbital_batch` (lines 290–342).  The
`indices` query string is taken after parsing, as the list of requested
integers.  The header `struct.pack` format `'<{4+n}i6f'` is explicitly
little-endian; the per-orbital grid data (`tobytes`) stays in native
byte order `le`. -/
def get_orbital_batch (f32 : ℚ → ℕ) (le : Bool) (solver : Solver)
    (registry : List (String × Preset)) (cache : Cache)
    (orbital_indices : List ℤ) (grid_size : ℕ) (margin : ℚ)
    (molecule : String) :
    Except String (Resp × Cache × List Ev) :=
  match get_mcscf_results solver registry cache molecule with
  | .error e => .error e
  | .ok (results, cache, ev) =>
    let natorbs := results.natorbs
    match firstBadIndex natorbs.cols orbital_indices with
    | some idx =>
      .ok (.badRequest ("Orbital index " ++ toString idx ++ " out of range (0-"
             ++ toString ((natorbs.cols : ℤ) - 1) ++ ")"), cache, ev)
    | none =>
      let bounds := get_grid_bounds results.atomCoords margin
      let min_coords := bounds.1
      let max_coords := bounds.2
      let grid_points := gridPoints grid_size min_coords max_coords
      let num_orbs := orbital_indices.length
      let header := packIF f32 true
        (((num_orbs : ℤ) :: (grid_size : ℤ) :: (grid_size : ℤ) :: (grid_size : ℤ) :: orbital_indices))
        [min_coords.1, min_coords.2.1, min_coords.2.2,
         max_coords.1, max_coords.2.1, max_coords.2.2]
      let blocks := orbital_indices.map fun idx =>
        floatBytes f32 le
          (evaluate_orbital_on_grid results.aoEval (npCol natorbs idx) grid_points)
      .ok (.ok (header ++ blocks.flatten) [],
           cache, ev ++ orbital_indices.map (fun _ => Ev.sample))

/-- Modelled from the spec: the repository ships no decoder, and §4.3
says "Decode is the mirror operation and must be exact".  Reads the
single-orbital buffer back: 3 signed 32-bit grid sizes, 6 32-bit float
bit patterns (min bounds then max bounds), then `gx*gy*gz` 32-bit float
bit patterns, requiring the buffer to end exactly there. -/
def decode_orbital_buffer (le : Bool) (buf : List ℕ) :
    Option ((ℤ × ℤ × ℤ) × List ℕ × List ℕ) :=
  match readWords le 3 buf with
  | some ([wx, wy, wz], rest) =>
    let gx := decodeInt32 wx
    let gy := decodeInt32 wy
    let gz := decodeInt32 wz
    (match readWords le 6 rest with
     | some (bounds, rest2) =>
       (match readWords le (gx.toNat * gy.toNat * gz.toNat) rest2 with
        | some (vals, rest3) =>
          if rest3 = [] then some ((gx, gy, gz), bounds, vals) else none
        | none => none)
     | none => none)
  | _ => none

/-! ## OrbitalLabeler: `generate_orbital_labels` (lines 98–192)

Python dicts are embedded as insertion-ordered association lists and
Python's stable `sorted` as a stable insertion sort (extensionally equal
to any stable sort under the same key).  The float literals `1e-10`,
`0.10`, `0.15` are modelled as the exact rationals they denote. -/

/-- Upsert into an insertion-ordered association list:
`d[k] = d.get(k, 0) + w` keeps an existing key's position and appends a
new key at the end, exactly like a Python dict. -/
def bump {α : Type} [DecidableEq α] (k : α) (w : ℚ) :
    List (α × ℚ) → List (α × ℚ)
  | [] => [(k, w)]
  | (k', w') :: t => if k' = k then (k', w' + w) :: t else (k', w') :: bump k w t

/-- Stable insertion (descending by `key`): an earlier element goes
before any later element of equal key. -/
def insertDesc {α : Type} (key : α → ℚ) (a : α) : List α → List α
  | [] => [a]
  | b :: t => if key b ≤ key a then a :: b :: t else b :: insertDesc key a t

/-- Python's `sorted(l, key=lambda x: -key(x))`: stable descending sort. -/
def sortedByWeightDesc {α : Type} (key : α → ℚ) : List α → List α
  | [] => []
  | a :: t => insertDesc key a (sortedByWeightDesc key t)

/-- The display atom label of one basis function (line 122): element
symbol suffixed with the 1-based atom index when that element owns more
basis functions than half the atom count, bare element symbol otherwise. -/
def atomLabelOf (aoLabels : List AoLabel) (natoms : ℕ) (a : AoLabel) : String :=
  if natoms / 2 < (aoLabels.filter fun b => b.element == a.element).length
  then a.element ++ toString (a.atom_idx + 1) else a.element

/-- `orb_type[-1] if orb_type else 's'` (line 126). -/
def lCharOf (a : AoLabel) : Char :=
  (a.orb_type.toList.getLast?).getD 's'

/-- `orb_type[:-1] if len(orb_type) > 1 else ''` (line 128). -/
def nQuantumOf (a : AoLabel) : String :=
  if 1 < a.orb_type.length then a.orb_type.dropRight 1 else ""

/-- The `atom_weights` dict: total squared-coefficient weight per
display atom label, in first-insertion order. -/
def atomWeightsOf (aoLabels : List AoLabel) (natoms : ℕ) (weights : List ℚ) :
    List (String × ℚ) :=
  (aoLabels.zip weights).foldl
    (fun acc p => bump (atomLabelOf aoLabels natoms p.1) p.2 acc) []

/-- The `atom_l_weights` dict: weight per
`(atom label, angular-momentum letter, principal prefix)` key.
(`atom_l_details` is also filled in the source but never read.) -/
def atomLWeightsOf (aoLabels : List AoLabel) (natoms : ℕ) (weights : List ℚ) :
    List ((String × Char × String) × ℚ) :=
  (aoLabels.zip weights).foldl
    (fun acc p =>
      bump (atomLabelOf aoLabels natoms p.1, lCharOf p.1, nQuantumOf p.1) p.2 acc) []

/-- The label-building loop at lines 148–157: walk the sorted atom+shell
list, stop when the next fraction is under 10% after at least one part,
or once two parts are collected. -/
def buildParts (total : ℚ) :
    List ((String × Char × String) × ℚ) → List String → List String
  | [], parts => parts
  | (k, w) :: t, parts =>
    if w / total < 1 / 10 ∧ 1 ≤ parts.length then parts
    else if 2 ≤ parts.length then parts
    else
      let shell_str := if k.2.2 = "" then String.singleton k.2.1 else k.2.2.push k.2.1
      buildParts total t (parts ++ [k.1 ++ " " ++ shell_str])

/-- The inner loop at lines 171–175: the signed coefficient of largest
magnitude among this atom's basis functions (starting from `0`). -/
def maxCoeffFor (aoLabels : List AoLabel) (natoms : ℕ) (coeffs : List ℚ)
    (atom_label : String) : ℚ :=
  (aoLabels.zip coeffs).foldl
    (fun mc p =>
      if atomLabelOf aoLabels natoms p.1 = atom_label ∧ |mc| < |p.2| then p.2 else mc)
    0

/-- `np.sign` on an exact rational. -/
def signQ (x : ℚ) : ℤ :=
  if 0 < x then 1 else if x < 0 then -1 else 0

/-- `len(set(signs)) > 1`: some element differs from the first. -/
def hasTwoDistinct (l : List ℤ) : Bool :=
  match l with
  | [] => false
  | h :: t => t.any fun x => x != h

/-- The per-orbital body of the labelling loop (lines 108–190), for
orbital `i` with coefficient column `coeffs`. -/
def labelOrbital (aoLabels : List AoLabel) (natoms : ℕ) (i : ℕ)
    (coeffs : List ℚ) : String :=
  let weights := coeffs.map fun c => c ^ 2
  let total_weight := weights.sum
  if total_weight < 1 / 10 ^ 10 then "MO " ++ toString (i + 1)
  else
    let atom_weights := atomWeightsOf aoLabels natoms weights
    let atom_l_weights := atomLWeightsOf aoLabels natoms weights
    let sorted_atoms := sortedByWeightDesc Prod.snd atom_weights
    let sorted_al := sortedByWeightDesc Prod.snd atom_l_weights
    let parts := buildParts total_weight sorted_al []
    let multi_atom :=
      1 < (sorted_atoms.filter fun aw => decide (3 / 20 < aw.2 / total_weight)).length
    if multi_atom then
      let major_atoms := sorted_atoms.filter fun aw => decide (3 / 20 < aw.2 / total_weight)
      let signs := major_atoms.map fun aw =>
        signQ (maxCoeffFor aoLabels natoms coeffs aw.1)
      let is_antibonding := hasTwoDistinct signs
      let bond_label := String.intercalate "-" ((major_atoms.take 2).map Prod.fst)
      if is_antibonding then "σ*(" ++ bond_label ++ ")" else "σ(" ++ bond_label ++ ")"
    else
      match parts with
      | p :: _ => p
      | [] => "MO " ++ toString (i + 1)

/-- Embeds `generate_orbital_labels`: one label per orbital column, in
column order.  `occupations` is accepted and (like the dead local `occ`
in the source) never influences any label. -/
def generate_orbital_labels (aoLabels : List AoLabel) (natoms : ℕ)
    (mo_coeffs : Mat) (occupations : List ℚ) : List String :=
  (List.range mo_coeffs.cols).map fun i =>
    labelOrbital aoLabels natoms i (mo_coeffs.col i)

/-! ## Spec-side layout descriptions (for refinement comparison)

These two definitions follow the words of spec §4.3, independently of
the handler code, so the layout claims compare the two. -/

/-- Follows the spec's words (§4.3, single-orbital encode): 3 signed
32-bit grid sizes, 6 32-bit floats (min bound x,y,z then max bound
x,y,z), then the `grid_size³` values as 32-bit floats, with no padding
and no length prefix. -/
def specSingleLayout (f32 : ℚ → ℕ) (le : Bool) (g : ℕ) (mn mx : ℚ × ℚ × ℚ)
    (values : List ℚ) : List ℕ :=
  int32 le g ++ int32 le g ++ int32 le g
    ++ word32 le (f32 mn.1) ++ word32 le (f32 mn.2.1) ++ word32 le (f32 mn.2.2)
    ++ word32 le (f32 mx.1) ++ word32 le (f32 mx.2.1) ++ word32 le (f32 mx.2.2)
    ++ floatBytes f32 le values

/-- Follows the spec's words (§4.3, batch encode): 1 signed 32-bit
orbital count, 3 signed 32-bit grid sizes, the requested indices as
signed 32-bit integers in caller order, 6 32-bit floats (min then max
bounds), then one `grid_size³`-value float block per index, in the same
order.  `le` is the byte order of the grid data blocks (the header is
explicitly little-endian in the source format string). -/
def specBatchLayout (f32 : ℚ → ℕ) (le : Bool) (g : ℕ) (idxs : List ℤ)
    (mn mx : ℚ × ℚ × ℚ) (blocks : List (List ℚ)) : List ℕ :=
  int32 true idxs.length ++ int32 true g ++ int32 true g ++ int32 true g
    ++ (idxs.map (int32 true)).flatten
    ++ word32 true (f32 mn.1) ++ word32 true (f32 mn.2.1) ++ word32 true (f32 mn.2.2)
    ++ word32 true (f32 mx.1) ++ word32 true (f32 mx.2.1) ++ word32 true (f32 mx.2.2)
    ++ (blocks.map (floatBytes f32 le)).flatten

/-! ## Helper lemmas -/

theorem floatBytes_length (f32 : ℚ → ℕ) (le : Bool) (vals : List ℚ) :
    (floatBytes f32 le vals).length = 4 * vals.length := by
  induction vals with
  | nil => rfl
  | cons v t ih =>
    have hsplit : floatBytes f32 le (v :: t) = word32 le (f32 v) ++ floatBytes f32 le t := rfl
    rw [hsplit, List.length_append, word32_length, ih, List.length_cons]
    ring

theorem linspace_length (a b : ℚ) (g : ℕ) : (linspace a b g).length = g := by
  simp [linspace]

theorem flatMap_length_const {α β : Type} (l : List α) (f : α → List β) (m : ℕ)
    (h : ∀ a, (f a).length = m) : (l.flatMap f).length = l.length * m := by
  induction l with
  | nil => simp
  | cons a t ih => simp [List.flatMap_cons, ih, h a]; ring

theorem gridPoints_length (g : ℕ) (mn mx : ℚ × ℚ × ℚ) :
    (gridPoints g mn mx).length = g ^ 3 := by
  unfold gridPoints
  rw [flatMap_length_const _ _ (g * g)
    (fun x => by
      rw [flatMap_length_const _ _ g (fun y => by simp [linspace_length])]
      simp [linspace_length])]
  simp [linspace_length]; ring

theorem evaluate_length (aoEval : ℚ × ℚ × ℚ → List ℚ) (c : List ℚ)
    (pts : List (ℚ × ℚ × ℚ)) :
    (evaluate_orbital_on_grid aoEval c pts).length = pts.length := by
  simp [evaluate_orbital_on_grid]

/-- Indexing a `flatMap` whose blocks all have length `m`. -/
theorem get?_flatMap_const {α β : Type} (l : List α) (f : α → List β) (m : ℕ)
    (h : ∀ a, (f a).length = m) (i j : ℕ) (hj : j < m) :
    (l.flatMap f).get? (i * m + j) = (l.get? i).bind fun a => (f a).get? j := by
  induction l generalizing i with
  | nil => simp
  | cons a t ih =>
    cases i with
    | zero =>
      simp only [List.flatMap_cons, Nat.zero_mul, Nat.zero_add, List.get?_append
        (by rw [h a]; exact hj), List.get?_cons_zero, Option.some_bind]
    | succ i =>
      have harith : (i + 1) * m + j = (f a).length + (i * m + j) := by rw [h a]; ring
      simp only [List.flatMap_cons, harith, List.get?_append_right (Nat.le_add_right _ _),
        Nat.add_sub_cancel_left, List.get?_cons_succ]
      exact ih i

/-- `get_mcscf_results` never emits a sampling event. -/
theorem mcscf_no_sample (solver : Solver) (registry : List (String × Preset))
    (cache : Cache) (id : String) (r : SolveResult) (cache1 : Cache) (ev : List Ev)
    (h : get_mcscf_results solver registry cache id = .ok (r, cache1, ev)) :
    Ev.sample ∉ ev := by
  unfold get_mcscf_results at h
  cases h1 : alookup cache id with
  | some r0 => rw [h1] at h; injection h with h'; cases h'; simp
  | none =>
    rw [h1] at h
    cases h2 : alookup registry id with
    | none => rw [h2] at h; cases h
    | some p => rw [h2] at h; injection h with h'; cases h'; simp

/-- Appending a fresh key to an association list makes it found. -/
theorem alookup_append_self {α : Type} (l : List (String × α)) (k : String) (v : α) :
    alookup l k = none → alookup (l ++ [(k, v)]) k = some v := by
  intro h
  induction l with
  | nil => simp [alookup]
  | cons p t ih =>
    rw [alookup] at h
    by_cases hk : k = p.1
    · simp [hk] at h
    · rw [List.cons_append, alookup]
      simp only [hk, if_false] at h ⊢
      exact ih h

/-! ## Concrete test fixture

A small synthetic molecule used to instantiate hypotheses: two atoms
(`H` at the origin, `F` at `(0,0,1)`), two basis functions, a constant
AO evaluation, and a 2×2 natural-orbital matrix with columns `[1, -1]`
and `[-1, 1]`.  `fixF32` is a stand-in binary32 pattern function. -/

def fixPreset : Preset := ⟨"Test molecule", "H 0 0 0; F 0 0 1", "6-31g", 2, 2⟩

def fixMat : Mat := ⟨2, 2, fun r c => if r = c then 1 else -1⟩

def fixResult : SolveResult where
  atomCoords := [(0, 0, 0), (0, 0, 1)]
  aoEval := fun _ => [1, 1]
  aoLabels := [⟨0, "H", "1s", ""⟩, ⟨1, "F", "1s", ""⟩]
  natorbs := fixMat
  occupations := [2, 0]
  energy := -1

def fixSolver : Solver := fun _ _ => fixResult

def fixRegistry : List (String × Preset) := [("water", fixPreset)]

def fixF32 : ℚ → ℕ := fun _ => 0

/-! ## Shape of a successful single-orbital response (shared lemma) -/

/-- Whenever the molecule resolves and the index passes the (upper-bound
only) check, the single-orbital handler returns a 200 response whose
body is the spec layout around the sampled `npCol` column, with one
sampling event appended to the solver trace. -/
theorem get_orbital_data_ok (f32 : ℚ → ℕ) (le : Bool) (solver : Solver)
    (registry : List (String × Preset)) (cache : Cache)
    (results : SolveResult) (cache0 : Cache) (ev : List Ev)
    (i : ℤ) (g : ℕ) (margin : ℚ) (iso : Option ℚ) (molecule : String)
    (hres : get_mcscf_results solver registry cache molecule = .ok (results, cache0, ev))
    (hidx : i < (results.natorbs.cols : ℤ)) :
    get_orbital_data f32 le solver registry cache i g margin iso molecule =
      .ok (.ok (specSingleLayout f32 le g
            (get_grid_bounds results.atomCoords margin).1
            (get_grid_bounds results.atomCoords margin).2
            (evaluate_orbital_on_grid results.aoEval (npCol results.natorbs i)
              (gridPoints g (get_grid_bounds results.atomCoords margin).1
                (get_grid_bounds results.atomCoords margin).2)))
          [("X-Grid-Size", toString g),
           ("X-Min-Coords",
             toString (get_grid_bounds results.atomCoords margin).1.1 ++ ","
               ++ toString (get_grid_bounds results.atomCoords margin).1.2.1 ++ ","
               ++ toString (get_grid_bounds results.atomCoords margin).1.2.2),
           ("X-Max-Coords",
             toString (get_grid_bounds results.atomCoords margin).2.1 ++ ","
               ++ toString (get_grid_bounds results.atomCoords margin).2.2.1 ++ ","
               ++ toString (get_grid_bounds results.atomCoords margin).2.2.2)],
        cache0, ev ++ [.sample]) := by
  unfold get_orbital_data
  rw [hres]
  simp only [not_le.mpr hidx, if_false]
  simp [specSingleLayout, packIF, floatBytes]

/-! ## C9 -/

/-- C9: the single-orbital endpoint's response — status, body bytes,
headers, cache effect and trace — is the same for any two values of the
`isovalue` query parameter (including omitting it): the handler accepts
the parameter and never reads it. -/
theorem isovalue_never_read (f32 : ℚ → ℕ) (le : Bool) (solver : Solver)
    (registry : List (String × Preset)) (cache : Cache)
    (i : ℤ) (g : ℕ) (margin : ℚ) (iso1 iso2 : Option ℚ) (molecule : String) :
    get_orbital_data f32 le solver registry cache i g margin iso1 molecule =
      get_orbital_data f32 le solver registry cache i g margin iso2 molecule := rfl

/-! ## C6 -/

/-- C6: for a registered molecule id, `get_mcscf_results` stores the
solved result keyed by the id, a repeat call returns the identical
stored result with no further solver invocation, the returned result's
occupation-vector length equals the coefficient matrix's column count,
and any one call runs the solver at most once. -/
theorem cache_computes_at_most_once (solver : Solver)
    (registry : List (String × Preset)) (cache : Cache) (id : String) (preset : Preset)
    (r : SolveResult) (cache1 : Cache) (tr : List Ev)
    (hreg : alookup registry id = some preset)
    (hsolver : ∀ mid p, (solver mid p).occupations.length = (solver mid p).natorbs.cols)
    (hcache : ∀ k r0, alookup cache k = some r0 → r0.occupations.length = r0.natorbs.cols)
    (hrun : get_mcscf_results solver registry cache id = .ok (r, cache1, tr)) :
    alookup cache1 id = some r
    ∧ get_mcscf_results solver registry cache1 id = .ok (r, cache1, [])
    ∧ r.occupations.length = r.natorbs.cols
    ∧ tr.length ≤ 1 := by
  unfold get_mcscf_results at hrun
  cases h1 : alookup cache id with
  | some r0 =>
    rw [h1] at hrun
    simp only [Except.ok.injEq, Prod.mk.injEq] at hrun
    obtain ⟨hr, hc, ht⟩ := hrun
    subst hr; subst hc; subst ht
    exact ⟨h1, by unfold get_mcscf_results; rw [h1], hcache _ _ h1, by simp⟩
  | none =>
    rw [h1, hreg] at hrun
    simp only [Except.ok.injEq, Prod.mk.injEq] at hrun
    obtain ⟨hr, hc, ht⟩ := hrun
    subst hr; subst hc; subst ht
    have hfound := alookup_append_self cache id (solver id preset) h1
    exact ⟨hfound, by unfold get_mcscf_results; rw [hfound], hsolver id preset, by simp⟩

/-- Witness for C6 at the concrete fixture: first call from the empty
cache solves once and stores; the hypotheses hold there. -/
theorem cache_computes_at_most_once_witness :
    alookup fixRegistry "water" = some fixPreset
    ∧ get_mcscf_results fixSolver fixRegistry [] "water" =
        .ok (fixResult, [("water", fixResult)], [.solve "water"])
    ∧ (alookup [("water", fixResult)] "water" = some fixResult
       ∧ get_mcscf_results fixSolver fixRegistry [("water", fixResult)] "water" =
           .ok (fixResult, [("water", fixResult)], [])
       ∧ fixResult.occupations.length = fixResult.natorbs.cols
       ∧ [Ev.solve "water"].length ≤ 1) :=
  ⟨rfl, rfl,
    cache_computes_at_most_once fixSolver fixRegistry [] "water" fixPreset fixResult
      [("water", fixResult)] [Ev.solve "water"] rfl (fun _ _ => rfl)
      (fun k r0 h => by simp [alookup] at h) rfl⟩

/-! ## C10 -/

/-- C10: a negative orbital index `i` with `-cols ≤ i < 0` is not
rejected by the single-orbital endpoint: the response is a normal 200
binary buffer whose data section samples coefficient column
`cols + i`, the column counted from the end. -/
theorem negative_index_counts_from_end (f32 : ℚ → ℕ) (le : Bool) (solver : Solver)
    (registry : List (String × Preset)) (cache : Cache)
    (results : SolveResult) (cache0 : Cache) (ev : List Ev)
    (i : ℤ) (g : ℕ) (margin : ℚ) (iso : Option ℚ) (molecule : String)
    (hres : get_mcscf_results solver registry cache molecule = .ok (results, cache0, ev))
    (hlow : -(results.natorbs.cols : ℤ) ≤ i) (hneg : i < 0) :
    get_orbital_data f32 le solver registry cache i g margin iso molecule =
      .ok (.ok (specSingleLayout f32 le g
            (get_grid_bounds results.atomCoords margin).1
            (get_grid_bounds results.atomCoords margin).2
            (evaluate_orbital_on_grid results.aoEval
              (results.natorbs.col (((results.natorbs.cols : ℤ) + i).toNat))
              (gridPoints g (get_grid_bounds results.atomCoords margin).1
                (get_grid_bounds results.atomCoords margin).2)))
          [("X-Grid-Size", toString g),
           ("X-Min-Coords",
             toString (get_grid_bounds results.atomCoords margin).1.1 ++ ","
               ++ toString (get_grid_bounds results.atomCoords margin).1.2.1 ++ ","
               ++ toString (get_grid_bounds results.atomCoords margin).1.2.2),
           ("X-Max-Coords",
             toString (get_grid_bounds results.atomCoords margin).2.1 ++ ","
               ++ toString (get_grid_bounds results.atomCoords margin).2.2.1 ++ ","
               ++ toString (get_grid_bounds results.atomCoords margin).2.2.2)],
        cache0, ev ++ [.sample]) := by
  have hidx : i < (results.natorbs.cols : ℤ) :=
    lt_of_lt_of_le hneg (Int.ofNat_nonneg _)
  rw [get_orbital_data_ok f32 le solver registry cache results cache0 ev i g margin iso
    molecule hres hidx]
  simp only [npCol, npColIndex, if_pos hneg]

/-- Witness for C10: index `-1` against the two-column fixture is served
with a 200 buffer sampling column `2 + (-1) = 1`. -/
theorem negative_index_counts_from_end_witness :
    get_mcscf_results fixSolver fixRegistry [] "water" =
        .ok (fixResult, [("water", fixResult)], [.solve "water"])
    ∧ -(fixResult.natorbs.cols : ℤ) ≤ -1
    ∧ (-1 : ℤ) < 0
    ∧ get_orbital_data fixF32 true fixSolver fixRegistry [] (-1) 2 1 none "water" =
      .ok (.ok (specSingleLayout fixF32 true 2
            (get_grid_bounds fixResult.atomCoords 1).1
            (get_grid_bounds fixResult.atomCoords 1).2
            (evaluate_orbital_on_grid fixResult.aoEval
              (fixResult.natorbs.col (((fixResult.natorbs.cols : ℤ) + -1).toNat))
              (gridPoints 2 (get_grid_bounds fixResult.atomCoords 1).1
                (get_grid_bounds fixResult.atomCoords 1).2)))
          [("X-Grid-Size", toString 2),
           ("X-Min-Coords",
             toString (get_grid_bounds fixResult.atomCoords 1).1.1 ++ ","
               ++ toString (get_grid_bounds fixResult.atomCoords 1).1.2.1 ++ ","
               ++ toString (get_grid_bounds fixResult.atomCoords 1).1.2.2),
           ("X-Max-Coords",
             toString (get_grid_bounds fixResult.atomCoords 1).2.1 ++ ","
               ++ toString (get_grid_bounds fixResult.atomCoords 1).2.2.1 ++ ","
               ++ toString (get_grid_bounds fixResult.atomCoords 1).2.2.2)],
        [("water", fixResult)], [.solve "water"] ++ [.sample]) :=
  ⟨rfl, by decide, by decide,
    negative_index_counts_from_end fixF32 true fixSolver fixRegistry [] fixResult
      [("water", fixResult)] [.solve "water"] (-1) 2 1 none "water" rfl
      (by decide) (by decide)⟩

/-! ## C2 -/

/-- Casting helper: the two's-complement pattern of a small nonnegative
grid size is the grid size itself. -/
theorem int32_pattern_of_small (g : ℕ) (hg : g < 2 ^ 31) :
    (((g : ℤ) % (2 ^ 32 : ℤ)).toNat) = g := by omega

/-- C2: every successful single-orbital encode with grid size `g`
produces exactly 3 signed 32-bit integers (all `g`), then 6 32-bit
floats (min then max bounds), then the `g³` sampled values as 32-bit
floats — total byte length `36 + 4·g³` — and the mirror decode of that
buffer recovers the same header integers, the same bound float
patterns, and the same array of 32-bit float values exactly. -/
theorem single_layout_roundtrip (f32 : ℚ → ℕ) (le : Bool) (solver : Solver)
    (registry : List (String × Preset)) (cache : Cache)
    (results : SolveResult) (cache0 : Cache) (ev : List Ev)
    (i : ℤ) (g : ℕ) (margin : ℚ) (iso : Option ℚ) (molecule : String)
    (hres : get_mcscf_results solver registry cache molecule = .ok (results, cache0, ev))
    (hidx : i < (results.natorbs.cols : ℤ))
    (hf32 : ∀ x, f32 x < 2 ^ 32) (hg : g < 2 ^ 31) :
    let mn := (get_grid_bounds results.atomCoords margin).1
    let mx := (get_grid_bounds results.atomCoords margin).2
    let values := evaluate_orbital_on_grid results.aoEval (npCol results.natorbs i)
      (gridPoints g mn mx)
    let B := specSingleLayout f32 le g mn mx values
    get_orbital_data f32 le solver registry cache i g margin iso molecule =
        .ok (.ok B
          [("X-Grid-Size", toString g),
           ("X-Min-Coords", toString mn.1 ++ "," ++ toString mn.2.1 ++ "," ++ toString mn.2.2),
           ("X-Max-Coords", toString mx.1 ++ "," ++ toString mx.2.1 ++ "," ++ toString mx.2.2)],
          cache0, ev ++ [.sample])
    ∧ B.length = 36 + 4 * g ^ 3
    ∧ decode_orbital_buffer le B =
        some (((g : ℤ), (g : ℤ), (g : ℤ)),
          [f32 mn.1, f32 mn.2.1, f32 mn.2.2, f32 mx.1, f32 mx.2.1, f32 mx.2.2],
          values.map f32) := by
  intro mn mx values B
  have hvlen : values.length = g ^ 3 := by
    rw [evaluate_length, gridPoints_length]
  refine ⟨get_orbital_data_ok f32 le solver registry cache results cache0 ev i g margin
    iso molecule hres hidx, ?_, ?_⟩
  · show (specSingleLayout f32 le g mn mx values).length = 36 + 4 * g ^ 3
    simp [specSingleLayout, List.length_append, word32_length, int32_length,
      floatBytes_length, hvlen]
    ring
  · show decode_orbital_buffer le (specSingleLayout f32 le g mn mx values) =
      some (((g : ℤ), (g : ℤ), (g : ℤ)),
        [f32 mn.1, f32 mn.2.1, f32 mn.2.2, f32 mx.1, f32 mx.2.1, f32 mx.2.2],
        values.map f32)
    have hpat : ((g : ℤ) % (2 ^ 32 : ℤ)).toNat = g := int32_pattern_of_small g hg
    have hgmod : g % 2 ^ 32 = g := Nat.mod_eq_of_lt (by omega)
    have hB : specSingleLayout f32 le g mn mx values =
        (([((g : ℤ) % (2 ^ 32 : ℤ)).toNat, ((g : ℤ) % (2 ^ 32 : ℤ)).toNat,
            ((g : ℤ) % (2 ^ 32 : ℤ)).toNat].map (word32 le)).flatten)
          ++ ((([f32 mn.1, f32 mn.2.1, f32 mn.2.2, f32 mx.1, f32 mx.2.1, f32 mx.2.2].map
                (word32 le)).flatten)
            ++ ((((values.map f32).map (word32 le)).flatten) ++ [])) := by
      simp [specSingleLayout, int32, floatBytes, List.map_map, Function.comp_def]
    have r1 : readWords le 3 (specSingleLayout f32 le g mn mx values) =
        some ([g, g, g],
          (([f32 mn.1, f32 mn.2.1, f32 mn.2.2, f32 mx.1, f32 mx.2.1, f32 mx.2.2].map
              (word32 le)).flatten)
            ++ ((((values.map f32).map (word32 le)).flatten) ++ [])) := by
      rw [hB,
        show (3 : ℕ) = [((g : ℤ) % (2 ^ 32 : ℤ)).toNat, ((g : ℤ) % (2 ^ 32 : ℤ)).toNat,
          ((g : ℤ) % (2 ^ 32 : ℤ)).toNat].length from rfl,
        readWords_concat]
      simp
      omega
    have r2 : readWords le 6
        ((([f32 mn.1, f32 mn.2.1, f32 mn.2.2, f32 mx.1, f32 mx.2.1, f32 mx.2.2].map
            (word32 le)).flatten)
          ++ ((((values.map f32).map (word32 le)).flatten) ++ [])) =
        some ([f32 mn.1, f32 mn.2.1, f32 mn.2.2, f32 mx.1, f32 mx.2.1, f32 mx.2.2],
          (((values.map f32).map (word32 le)).flatten) ++ []) := by
      rw [show (6 : ℕ) = [f32 mn.1, f32 mn.2.1, f32 mn.2.2, f32 mx.1, f32 mx.2.1,
          f32 mx.2.2].length from rfl,
        readWords_concat]
      have h1 := hf32 mn.1; have h2 := hf32 mn.2.1; have h3 := hf32 mn.2.2
      have h4 := hf32 mx.1; have h5 := hf32 mx.2.1; have h6 := hf32 mx.2.2
      simp
      omega
    have r3 : readWords le (g * g * g) ((((values.map f32).map (word32 le)).flatten) ++ []) =
        some (values.map f32, []) := by
      rw [show g * g * g = (values.map f32).length from by simp [hvlen]; ring,
        readWords_concat]
      have hmap : (values.map f32).map (· % 2 ^ 32) = (values.map f32).map id :=
        List.map_congr_left fun x hx => by
          obtain ⟨v, _, rfl⟩ := List.mem_map.mp hx
          exact Nat.mod_eq_of_lt (hf32 v)
      rw [hmap, List.map_id]
    have hdec : decodeInt32 g = (g : ℤ) := by
      unfold decodeInt32
      rw [if_pos (by omega)]
    simp only [decode_orbital_buffer, r1, hdec, Int.toNat_natCast, r2, r3]
    simp

/-- Witness for C2 at the fixture: orbital 0, grid size 2, margin 1. -/
theorem single_layout_roundtrip_witness :
    let mn := (get_grid_bounds fixResult.atomCoords 1).1
    let mx := (get_grid_bounds fixResult.atomCoords 1).2
    let values := evaluate_orbital_on_grid fixResult.aoEval (npCol fixResult.natorbs 0)
      (gridPoints 2 mn mx)
    let B := specSingleLayout fixF32 true 2 mn mx values
    get_orbital_data fixF32 true fixSolver fixRegistry [] 0 2 1 none "water" =
        .ok (.ok B
          [("X-Grid-Size", toString 2),
           ("X-Min-Coords", toString mn.1 ++ "," ++ toString mn.2.1 ++ "," ++ toString mn.2.2),
           ("X-Max-Coords", toString mx.1 ++ "," ++ toString mx.2.1 ++ "," ++ toString mx.2.2)],
          [("water", fixResult)], [.solve "water"] ++ [.sample])
    ∧ B.length = 36 + 4 * 2 ^ 3
    ∧ decode_orbital_buffer true B =
        some (((2 : ℤ), (2 : ℤ), (2 : ℤ)),
          [fixF32 mn.1, fixF32 mn.2.1, fixF32 mn.2.2, fixF32 mx.1, fixF32 mx.2.1,
            fixF32 mx.2.2],
          values.map fixF32) :=
  single_layout_roundtrip fixF32 true fixSolver fixRegistry [] fixResult
    [("water", fixResult)] [.solve "water"] 0 2 1 none "water" rfl (by decide)
    (fun _ => by norm_num [fixF32]) (by norm_num)

/-! ## C1 -/

theorem flatten_map_length_const {α β : Type} (l : List α) (f : α → List β) (m : ℕ)
    (h : ∀ a ∈ l, (f a).length = m) : ((l.map f).flatten).length = l.length * m := by
  induction l with
  | nil => simp
  | cons a t ih =>
    simp only [List.map_cons, List.flatten_cons, List.length_append, List.length_cons,
      h a (List.mem_cons_self a t), ih fun b hb => h b (List.mem_cons_of_mem a hb)]
    ring

/-- C1: a successful batch encode with `n` requested indices and grid
size `g` lays the buffer out as one int32 `n`, three int32 `g`, the `n`
requested indices as int32 in caller order, six 32-bit floats (min
bound x,y,z then max bound x,y,z), then `n` consecutive `g³`-float grid
blocks in the same order as the index list; its total byte length is
exactly `(4+n)*4 + 6*4 + n*g³*4`. -/
theorem batch_layout (f32 : ℚ → ℕ) (le : Bool) (solver : Solver)
    (registry : List (String × Preset)) (cache : Cache)
    (results : SolveResult) (cache0 : Cache) (ev : List Ev)
    (idxs : List ℤ) (g : ℕ) (margin : ℚ) (molecule : String)
    (hres : get_mcscf_results solver registry cache molecule = .ok (results, cache0, ev))
    (hvalid : ∀ idx ∈ idxs, 0 ≤ idx ∧ idx < (results.natorbs.cols : ℤ)) :
    let mn := (get_grid_bounds results.atomCoords margin).1
    let mx := (get_grid_bounds results.atomCoords margin).2
    let blocks := idxs.map fun idx =>
      evaluate_orbital_on_grid results.aoEval (npCol results.natorbs idx)
        (gridPoints g mn mx)
    get_orbital_batch f32 le solver registry cache idxs g margin molecule =
        .ok (.ok (specBatchLayout f32 le g idxs mn mx blocks) [],
          cache0, ev ++ idxs.map (fun _ => Ev.sample))
    ∧ (specBatchLayout f32 le g idxs mn mx blocks).length =
        (4 + idxs.length) * 4 + 6 * 4 + idxs.length * g ^ 3 * 4 := by
  intro mn mx blocks
  have hfb : firstBadIndex results.natorbs.cols idxs = none := by
    rw [firstBadIndex, List.find?_eq_none]
    intro idx hidx
    obtain ⟨h0, h1⟩ := hvalid idx hidx
    simp only [Bool.or_eq_true, decide_eq_true_eq, not_or]
    omega
  unfold_let blocks mn mx
  constructor
  · unfold get_orbital_batch
    rw [hres]
    simp only [hfb]
    simp [specBatchLayout, packIF, floatBytes, List.map_map, Function.comp_def]
  · have hblock : ∀ b ∈ idxs.map fun idx =>
        evaluate_orbital_on_grid results.aoEval (npCol results.natorbs idx)
          (gridPoints g (get_grid_bounds results.atomCoords margin).1
            (get_grid_bounds results.atomCoords margin).2),
        (floatBytes f32 le b).length = 4 * g ^ 3 := by
      intro b hb
      obtain ⟨idx, _, rfl⟩ := List.mem_map.mp hb
      rw [floatBytes_length, evaluate_length, gridPoints_length]
    have hibytes : ((idxs.map (int32 true)).flatten).length = idxs.length * 4 :=
      flatten_map_length_const idxs (int32 true) 4 fun a _ => int32_length true a
    have hbbytes := flatten_map_length_const _ (floatBytes f32 le) (4 * g ^ 3) hblock
    simp only [specBatchLayout, List.length_append, int32_length, word32_length,
      hibytes, hbbytes, List.length_map]
    ring

/-- Witness for C1 at the fixture: indices `[0, 1]`, grid size 2. -/
theorem batch_layout_witness :
    (∀ idx ∈ ([0, 1] : List ℤ), 0 ≤ idx ∧ idx < (fixResult.natorbs.cols : ℤ))
    ∧ (let mn := (get_grid_bounds fixResult.atomCoords 1).1
       let mx := (get_grid_bounds fixResult.atomCoords 1).2
       let blocks := ([0, 1] : List ℤ).map fun idx =>
         evaluate_orbital_on_grid fixResult.aoEval (npCol fixResult.natorbs idx)
           (gridPoints 2 mn mx)
       get_orbital_batch fixF32 true fixSolver fixRegistry [] [0, 1] 2 1 "water" =
           .ok (.ok (specBatchLayout fixF32 true 2 [0, 1] mn mx blocks) [],
             [("water", fixResult)],
             [.solve "water"] ++ ([0, 1] : List ℤ).map (fun _ => Ev.sample))
       ∧ (specBatchLayout fixF32 true 2 [0, 1] mn mx blocks).length =
           (4 + ([0, 1] : List ℤ).length) * 4 + 6 * 4
             + ([0, 1] : List ℤ).length * 2 ^ 3 * 4) :=
  ⟨by decide,
    batch_layout fixF32 true fixSolver fixRegistry [] fixResult [("water", fixResult)]
      [.solve "water"] [0, 1] 2 1 "water" rfl (by decide)⟩

/-! ## Rejection shapes and run projections (shared lemmas) -/

/-- Response of a handler run, when it did not raise. -/
def respOf (e : Except String (Resp × Cache × List Ev)) : Option Resp :=
  match e with
  | .ok (r, _, _) => some r
  | .error _ => none

/-- Solver/sampler trace of a handler run (empty when it raised). -/
def evsOf (e : Except String (Resp × Cache × List Ev)) : List Ev :=
  match e with
  | .ok (_, _, ev) => ev
  | .error _ => []

/-- An unknown, uncached molecule id makes `get_mcscf_results` fail
without touching the solver. -/
theorem mcscf_unknown (solver : Solver) (registry : List (String × Preset))
    (cache : Cache) (id : String)
    (hnc : alookup cache id = none) (hnr : alookup registry id = none) :
    get_mcscf_results solver registry cache id = .error ("Unknown molecule: " ++ id) := by
  unfold get_mcscf_results
  simp only [hnc, hnr]

/-- The single-orbital handler's rejection shape for `cols ≤ i`. -/
theorem single_reject_shape (f32 : ℚ → ℕ) (le : Bool) (solver : Solver)
    (registry : List (String × Preset)) (cache : Cache)
    (results : SolveResult) (cache0 : Cache) (ev : List Ev)
    (i : ℤ) (g : ℕ) (margin : ℚ) (iso : Option ℚ) (molecule : String)
    (hres : get_mcscf_results solver registry cache molecule = .ok (results, cache0, ev))
    (hidx : (results.natorbs.cols : ℤ) ≤ i) :
    get_orbital_data f32 le solver registry cache i g margin iso molecule =
      .ok (.badRequest ("Orbital index " ++ toString i ++ " out of range"),
        cache0, ev) := by
  unfold get_orbital_data
  rw [hres]
  simp only [hidx, if_true]

/-- The batch handler's rejection shape when the validation loop finds
an out-of-range index. -/
theorem batch_reject_shape (f32 : ℚ → ℕ) (le : Bool) (solver : Solver)
    (registry : List (String × Preset)) (cache : Cache)
    (results : SolveResult) (cache0 : Cache) (ev : List Ev)
    (idxs : List ℤ) (idx : ℤ) (g : ℕ) (margin : ℚ) (molecule : String)
    (hres : get_mcscf_results solver registry cache molecule = .ok (results, cache0, ev))
    (hbad : firstBadIndex results.natorbs.cols idxs = some idx) :
    get_orbital_batch f32 le solver registry cache idxs g margin molecule =
      .ok (.badRequest ("Orbital index " ++ toString idx ++ " out of range (0-"
        ++ toString ((results.natorbs.cols : ℤ) - 1) ++ ")"), cache0, ev) := by
  unfold get_orbital_batch
  rw [hres]
  simp only [hbad]

/-! ## C4 -/

/-- Counterexample for C4: on the single-orbital endpoint the negative
index `-1` (column count 2) is not rejected — the response is a 200
binary buffer and grid sampling does run. -/
theorem single_negative_index_not_rejected :
    (respOf (get_orbital_data fixF32 true fixSolver fixRegistry [] (-1) 2 1 none
        "water")).map Resp.isOk = some true
    ∧ Ev.sample ∈ evsOf (get_orbital_data fixF32 true fixSolver fixRegistry [] (-1) 2 1
        none "water") := by
  constructor
  · rfl
  · decide

/-- C4 (amended): an index at or above the column count is rejected by
the single endpoint with a 4xx plain-text error and no sampling; the
batch endpoint rejects any index outside `[0, column count)` — negative
ones included — naming the first offender, with no sampling; but the
single endpoint checks only the upper bound, so negative indices are
not rejected there (see the counterexample). -/
theorem index_validation_amended (f32 : ℚ → ℕ) (le : Bool) (solver : Solver)
    (registry : List (String × Preset)) (cache : Cache)
    (results : SolveResult) (cache0 : Cache) (ev : List Ev)
    (i : ℤ) (idxs : List ℤ) (idx : ℤ) (g : ℕ) (margin : ℚ) (iso : Option ℚ)
    (molecule : String)
    (hres : get_mcscf_results solver registry cache molecule = .ok (results, cache0, ev))
    (hidx : (results.natorbs.cols : ℤ) ≤ i)
    (hbad : firstBadIndex results.natorbs.cols idxs = some idx) :
    (get_orbital_data f32 le solver registry cache i g margin iso molecule =
        .ok (.badRequest ("Orbital index " ++ toString i ++ " out of range"),
          cache0, ev)
      ∧ Ev.sample ∉ ev)
    ∧ (get_orbital_batch f32 le solver registry cache idxs g margin molecule =
        .ok (.badRequest ("Orbital index " ++ toString idx ++ " out of range (0-"
          ++ toString ((results.natorbs.cols : ℤ) - 1) ++ ")"), cache0, ev)
      ∧ Ev.sample ∉ ev)
    ∧ (firstBadIndex results.natorbs.cols idxs = none ↔
        ∀ j ∈ idxs, 0 ≤ j ∧ j < (results.natorbs.cols : ℤ)) := by
  have hnosample := mcscf_no_sample solver registry cache molecule results cache0 ev hres
  refine ⟨⟨single_reject_shape f32 le solver registry cache results cache0 ev i g margin
      iso molecule hres hidx, hnosample⟩,
    ⟨batch_reject_shape f32 le solver registry cache results cache0 ev idxs idx g margin
      molecule hres hbad, hnosample⟩, ?_⟩
  rw [firstBadIndex, List.find?_eq_none]
  constructor
  · intro h j hj
    have := h j hj
    simp only [Bool.or_eq_true, decide_eq_true_eq, not_or] at this
    omega
  · intro h j hj
    have := h j hj
    simp only [Bool.or_eq_true, decide_eq_true_eq, not_or]
    omega

/-- Witness for C4 (amended) at the fixture: single index 99, batch
indices `[-1, 0]` whose first offender is `-1`. -/
theorem index_validation_amended_witness :
    ((fixResult.natorbs.cols : ℤ) ≤ 99)
    ∧ firstBadIndex fixResult.natorbs.cols [-1, 0] = some (-1)
    ∧ ((get_orbital_data fixF32 true fixSolver fixRegistry [] 99 2 1 none "water" =
          .ok (.badRequest ("Orbital index " ++ toString (99 : ℤ) ++ " out of range"),
            [("water", fixResult)], [.solve "water"])
        ∧ Ev.sample ∉ [Ev.solve "water"])
      ∧ (get_orbital_batch fixF32 true fixSolver fixRegistry [] [-1, 0] 2 1 "water" =
          .ok (.badRequest ("Orbital index " ++ toString (-1 : ℤ) ++ " out of range (0-"
            ++ toString ((fixResult.natorbs.cols : ℤ) - 1) ++ ")"),
            [("water", fixResult)], [.solve "water"])
        ∧ Ev.sample ∉ [Ev.solve "water"])
      ∧ (firstBadIndex fixResult.natorbs.cols [-1, 0] = none ↔
          ∀ j ∈ ([-1, 0] : List ℤ), 0 ≤ j ∧ j < (fixResult.natorbs.cols : ℤ))) :=
  ⟨by decide, by decide,
    index_validation_amended fixF32 true fixSolver fixRegistry [] fixResult
      [("water", fixResult)] [.solve "water"] 99 [-1, 0] (-1) 2 1 none "water" rfl
      (by decide) (by decide)⟩

/-! ## C5 -/

/-- Counterexample for C5: with an empty cache, an out-of-range orbital
index on the single endpoint is rejected only AFTER the molecule's
solve — the trace of the run shows a solver invocation even though the
response is a 400 rejection. -/
theorem out_of_range_checked_after_solve :
    evsOf (get_orbital_data fixF32 true fixSolver fixRegistry [] 99 2 1 none "water") =
      [.solve "water"]
    ∧ (respOf (get_orbital_data fixF32 true fixSolver fixRegistry [] 99 2 1 none
        "water")).map Resp.isOk = some false := by
  constructor
  · decide
  · rfl

/-- C5 (amended): an unknown molecule id fails with `Unknown molecule`
before any solver invocation — the handler result does not depend on
the solver at all — on both endpoints; an out-of-range orbital index is
rejected before the grid sampler runs, but only after the molecule has
been resolved (the column count comes from the solve result), so the
index check does not precede the solver. -/
theorem validation_order_amended (f32 : ℚ → ℕ) (le : Bool) (solver solver2 : Solver)
    (registry : List (String × Preset)) (cache : Cache)
    (results : SolveResult) (cache0 : Cache) (ev : List Ev)
    (i : ℤ) (idxs : List ℤ) (idx : ℤ) (g : ℕ) (margin : ℚ) (iso : Option ℚ)
    (badId goodId : String)
    (hnc : alookup cache badId = none) (hnr : alookup registry badId = none)
    (hres : get_mcscf_results solver registry cache goodId = .ok (results, cache0, ev))
    (hidx : (results.natorbs.cols : ℤ) ≤ i)
    (hbad : firstBadIndex results.natorbs.cols idxs = some idx) :
    (get_orbital_data f32 le solver registry cache i g margin iso badId =
        .error ("Unknown molecule: " ++ badId)
      ∧ get_orbital_batch f32 le solver registry cache idxs g margin badId =
        .error ("Unknown molecule: " ++ badId)
      ∧ get_orbital_data f32 le solver registry cache i g margin iso badId =
        get_orbital_data f32 le solver2 registry cache i g margin iso badId
      ∧ get_orbital_batch f32 le solver registry cache idxs g margin badId =
        get_orbital_batch f32 le solver2 registry cache idxs g margin badId)
    ∧ (get_orbital_data f32 le solver registry cache i g margin iso goodId =
        .ok (.badRequest ("Orbital index " ++ toString i ++ " out of range"),
          cache0, ev)
      ∧ get_orbital_batch f32 le solver registry cache idxs g margin goodId =
        .ok (.badRequest ("Orbital index " ++ toString idx ++ " out of range (0-"
          ++ toString ((results.natorbs.cols : ℤ) - 1) ++ ")"), cache0, ev)
      ∧ Ev.sample ∉ ev) := by
  have hu1 := mcscf_unknown solver registry cache badId hnc hnr
  have hu2 := mcscf_unknown solver2 registry cache badId hnc hnr
  have hsingle : ∀ s : Solver, get_mcscf_results s registry cache badId =
        .error ("Unknown molecule: " ++ badId) →
      get_orbital_data f32 le s registry cache i g margin iso badId =
        .error ("Unknown molecule: " ++ badId) := by
    intro s hs
    unfold get_orbital_data
    rw [hs]
  have hbatch : ∀ s : Solver, get_mcscf_results s registry cache badId =
        .error ("Unknown molecule: " ++ badId) →
      get_orbital_batch f32 le s registry cache idxs g margin badId =
        .error ("Unknown molecule: " ++ badId) := by
    intro s hs
    unfold get_orbital_batch
    rw [hs]
  exact ⟨⟨hsingle solver hu1, hbatch solver hu1,
      (hsingle solver hu1).trans (hsingle solver2 hu2).symm,
      (hbatch solver hu1).trans (hbatch solver2 hu2).symm⟩,
    single_reject_shape f32 le solver registry cache results cache0 ev i g margin iso
      goodId hres hidx,
    batch_reject_shape f32 le solver registry cache results cache0 ev idxs idx g margin
      goodId hres hbad,
    mcscf_no_sample solver registry cache goodId results cache0 ev hres⟩

/-- Witness for C5 (amended): unknown id `xenon`, known id `water`,
single index 99, batch indices `[-1]`. -/
theorem validation_order_amended_witness :
    alookup ([] : Cache) "xenon" = none
    ∧ alookup fixRegistry "xenon" = none
    ∧ (fixResult.natorbs.cols : ℤ) ≤ 99
    ∧ firstBadIndex fixResult.natorbs.cols [-1] = some (-1)
    ∧ ((get_orbital_data fixF32 true fixSolver fixRegistry [] 99 2 1 none "xenon" =
          .error ("Unknown molecule: " ++ "xenon")
        ∧ get_orbital_batch fixF32 true fixSolver fixRegistry [] [-1] 2 1 "xenon" =
          .error ("Unknown molecule: " ++ "xenon")
        ∧ get_orbital_data fixF32 true fixSolver fixRegistry [] 99 2 1 none "xenon" =
          get_orbital_data fixF32 true (fun _ _ => fixResult) fixRegistry [] 99 2 1 none
            "xenon"
        ∧ get_orbital_batch fixF32 true fixSolver fixRegistry [] [-1] 2 1 "xenon" =
          get_orbital_batch fixF32 true (fun _ _ => fixResult) fixRegistry [] [-1] 2 1
            "xenon")
      ∧ (get_orbital_data fixF32 true fixSolver fixRegistry [] 99 2 1 none "water" =
          .ok (.badRequest ("Orbital index " ++ toString (99 : ℤ) ++ " out of range"),
            [("water", fixResult)], [.solve "water"])
        ∧ get_orbital_batch fixF32 true fixSolver fixRegistry [] [-1] 2 1 "water" =
          .ok (.badRequest ("Orbital index " ++ toString (-1 : ℤ) ++ " out of range (0-"
            ++ toString ((fixResult.natorbs.cols : ℤ) - 1) ++ ")"),
            [("water", fixResult)], [.solve "water"])
        ∧ Ev.sample ∉ [Ev.solve "water"])) :=
  ⟨rfl, rfl, by decide, by decide,
    validation_order_amended fixF32 true fixSolver (fun _ _ => fixResult) fixRegistry []
      fixResult [("water", fixResult)] [.solve "water"] 99 [-1] (-1) 2 1 none
      "xenon" "water" rfl rfl rfl (by decide) (by decide)⟩

/-! ## C3 -/

/-- C3 (code bug): the single-orbital header is packed with the
byte-order-free `struct` format `'3i6f'` and the grid floats of both
endpoints are emitted with numpy `tobytes`, all in the platform's
native byte order, so the emitted bytes differ between a little-endian
and a big-endian platform — at grid size 2 the encoded buffers of both
endpoints already disagree.  Only the batch header (format
`'<{4+n}i6f'`) is pinned to little-endian.  This contradicts the spec's
"single, fixed byte order … never platform-dependent". -/
theorem encode_platform_dependent :
    (respOf (get_orbital_data (fun _ => 1) true fixSolver fixRegistry [] 0 2 1 none
        "water")).map Resp.okBody ≠
      (respOf (get_orbital_data (fun _ => 1) false fixSolver fixRegistry [] 0 2 1 none
        "water")).map Resp.okBody
    ∧ (respOf (get_orbital_batch (fun _ => 1) true fixSolver fixRegistry [] [0] 2 1
        "water")).map Resp.okBody ≠
      (respOf (get_orbital_batch (fun _ => 1) false fixSolver fixRegistry [] [0] 2 1
        "water")).map Resp.okBody := by
  constructor
  · decide
  · decide

/-! ## C8 -/

/-- Coefficient column `[1, -1]` on the two-atom fixture basis. -/
def labMatAnti : Mat := ⟨2, 1, fun r _ => if r = 0 then 1 else -1⟩

/-- Coefficient column `[1, 1]` on the two-atom fixture basis. -/
def labMatBond : Mat := ⟨2, 1, fun _ _ => 1⟩

/-- C8: on the synthetic two-atom, two-basis-function system (elements
`H` and `F`, one `1s` function each, both atoms at 50% of the squared
weight, far above the 15% threshold), coefficients `[1, -1]` give the
antibonding label `σ*(H-F)` and coefficients `[1, 1]` give the bonding
label `σ(H-F)` — the classification follows the signs of each major
atom's largest-magnitude coefficient, the two highest-weight atoms'
labels joined by a hyphen. -/
theorem two_atom_bonding_classification :
    generate_orbital_labels fixResult.aoLabels 2 labMatAnti [2] = ["σ*(H-F)"]
    ∧ generate_orbital_labels fixResult.aoLabels 2 labMatBond [2] = ["σ(H-F)"] := by
  constructor
  · simp +decide [generate_orbital_labels, labelOrbital, atomWeightsOf, atomLWeightsOf,
      atomLabelOf, lCharOf, nQuantumOf, bump, sortedByWeightDesc, insertDesc, buildParts,
      maxCoeffFor, signQ, hasTwoDistinct, Mat.col, List.range_succ, fixResult, labMatAnti,
      List.filter, List.zip, List.zipWith, String.intercalate, String.intercalate.go]
    norm_num
    simp +decide
  · simp +decide [generate_orbital_labels, labelOrbital, atomWeightsOf, atomLWeightsOf,
      atomLabelOf, lCharOf, nQuantumOf, bump, sortedByWeightDesc, insertDesc, buildParts,
      maxCoeffFor, signQ, hasTwoDistinct, Mat.col, List.range_succ, fixResult, labMatBond,
      List.filter, List.zip, List.zipWith, String.intercalate, String.intercalate.go]
    norm_num
    simp +decide

/-! ## C7 -/

theorem foldl_min_char (a : ℚ) (l : List ℚ) :
    l.foldl min a ∈ a :: l ∧ ∀ x ∈ a :: l, l.foldl min a ≤ x := by
  induction l generalizing a with
  | nil => simp
  | cons b t ih =>
    obtain ⟨hmem, hle⟩ := ih (min a b)
    constructor
    · rw [List.foldl_cons]
      rcases List.mem_cons.mp hmem with h | h
      · rcases min_choice a b with hm | hm
        · exact List.mem_cons.mpr (Or.inl (h.trans hm))
        · exact List.mem_cons.mpr (Or.inr (List.mem_cons.mpr (Or.inl (h.trans hm))))
      · exact List.mem_cons.mpr (Or.inr (List.mem_cons.mpr (Or.inr h)))
    · intro x hx
      rw [List.foldl_cons]
      rcases List.mem_cons.mp hx with rfl | hx
      · exact (hle _ (List.mem_cons_self _ _)).trans (min_le_left x b)
      · rcases List.mem_cons.mp hx with rfl | hx
        · exact (hle _ (List.mem_cons_self _ _)).trans (min_le_right a x)
        · exact hle x (List.mem_cons_of_mem _ hx)

theorem foldl_max_char (a : ℚ) (l : List ℚ) :
    l.foldl max a ∈ a :: l ∧ ∀ x ∈ a :: l, x ≤ l.foldl max a := by
  induction l generalizing a with
  | nil => simp
  | cons b t ih =>
    obtain ⟨hmem, hle⟩ := ih (max a b)
    constructor
    · rw [List.foldl_cons]
      rcases List.mem_cons.mp hmem with h | h
      · rcases max_choice a b with hm | hm
        · exact List.mem_cons.mpr (Or.inl (h.trans hm))
        · exact List.mem_cons.mpr (Or.inr (List.mem_cons.mpr (Or.inl (h.trans hm))))
      · exact List.mem_cons.mpr (Or.inr (List.mem_cons.mpr (Or.inr h)))
    · intro x hx
      rw [List.foldl_cons]
      rcases List.mem_cons.mp hx with rfl | hx
      · exact (le_max_left x b).trans (hle _ (List.mem_cons_self _ _))
      · rcases List.mem_cons.mp hx with rfl | hx
        · exact (le_max_right a x).trans (hle _ (List.mem_cons_self _ _))
        · exact hle x (List.mem_cons_of_mem _ hx)

theorem foldl_min3_proj (t : List (ℚ × ℚ × ℚ)) (c : ℚ × ℚ × ℚ) :
    t.foldl (fun a p => (min a.1 p.1, min a.2.1 p.2.1, min a.2.2 p.2.2)) c =
      (t.foldl (fun a p => min a p.1) c.1,
       t.foldl (fun a p => min a p.2.1) c.2.1,
       t.foldl (fun a p => min a p.2.2) c.2.2) := by
  induction t generalizing c with
  | nil => rfl
  | cons b t ih => simp [List.foldl_cons, ih]

theorem foldl_max3_proj (t : List (ℚ × ℚ × ℚ)) (c : ℚ × ℚ × ℚ) :
    t.foldl (fun a p => (max a.1 p.1, max a.2.1 p.2.1, max a.2.2 p.2.2)) c =
      (t.foldl (fun a p => max a p.1) c.1,
       t.foldl (fun a p => max a p.2.1) c.2.1,
       t.foldl (fun a p => max a p.2.2) c.2.2) := by
  induction t generalizing c with
  | nil => rfl
  | cons b t ih => simp [List.foldl_cons, ih]

/-- The `i`-th linspace point is `a + (b-a)/(g-1) * i`, including the
explicitly assigned endpoint, which coincides with the even-spacing
formula over exact rationals. -/
theorem linspace_get? (a b : ℚ) (g : ℕ) (hg : 2 ≤ g) (i : ℕ) (hi : i < g) :
    (linspace a b g).get? i = some (a + (b - a) / ((g : ℚ) - 1) * (i : ℚ)) := by
  have hgq : (2 : ℚ) ≤ (g : ℚ) := by exact_mod_cast hg
  have hne : ((g : ℚ) - 1) ≠ 0 := by linarith
  unfold linspace
  rw [List.get?_eq_getElem?, List.getElem?_map, ← List.get?_eq_getElem?,
    List.get?_range hi]
  simp only [Option.map_some']
  by_cases hlast : i = g - 1
  · subst hlast
    rw [if_pos ⟨by omega, rfl⟩]
    have hcast : ((g - 1 : ℕ) : ℚ) = (g : ℚ) - 1 := by
      have h1 : 1 ≤ g := by omega
      push_cast [h1]
      ring
    rw [hcast, div_mul_cancel₀ _ hne]
    congr 1
    ring
  · rw [if_neg fun h => hlast h.2]

/-- The linspace endpoints are exactly the interval's ends. -/
theorem linspace_ends (a b : ℚ) (g : ℕ) (hg : 2 ≤ g) :
    (linspace a b g).get? 0 = some a ∧ (linspace a b g).get? (g - 1) = some b := by
  constructor
  · rw [linspace_get? a b g hg 0 (by omega)]
    simp
  · unfold linspace
    rw [List.get?_eq_getElem?, List.getElem?_map, ← List.get?_eq_getElem?,
      List.get?_range (by omega : g - 1 < g)]
    simp only [Option.map_some']
    simp [show 1 < g from by omega]

set_option maxHeartbeats 2000000 in
/-- C7: the sampling bounds are the per-axis elementwise min and max of
the atom positions shifted by the margin; every axis carries exactly
`g` evenly spaced points whose first and last entries equal the bounds
exactly; the flat point sequence enumerates the grid with `x` varying
slowest and `z` fastest, of length `g³`; and the sampled amplitudes are
the AO-contracted values at exactly those points in that order. -/
theorem grid_bounds_spacing_order (coords : List (ℚ × ℚ × ℚ)) (margin : ℚ) (g : ℕ)
    (aoEval : ℚ × ℚ × ℚ → List ℚ) (coeff : List ℚ) (q : ℚ × ℚ × ℚ) (i j k : ℕ)
    (hne : coords ≠ []) (hg : 2 ≤ g) (hq : q ∈ coords)
    (hi : i < g) (hj : j < g) (hk : k < g)
    (mn mx : ℚ × ℚ × ℚ)
    (hbmn : mn = (get_grid_bounds coords margin).1)
    (hbmx : mx = (get_grid_bounds coords margin).2) :
    let X : ℕ → ℚ := fun n => mn.1 + (mx.1 - mn.1) / ((g : ℚ) - 1) * (n : ℚ)
    let Y : ℕ → ℚ := fun n => mn.2.1 + (mx.2.1 - mn.2.1) / ((g : ℚ) - 1) * (n : ℚ)
    let Z : ℕ → ℚ := fun n => mn.2.2 + (mx.2.2 - mn.2.2) / ((g : ℚ) - 1) * (n : ℚ)
    ((mn.1 + margin) ∈ coords.map (fun p => p.1)
      ∧ (mn.2.1 + margin) ∈ coords.map (fun p => p.2.1)
      ∧ (mn.2.2 + margin) ∈ coords.map (fun p => p.2.2)
      ∧ (mx.1 - margin) ∈ coords.map (fun p => p.1)
      ∧ (mx.2.1 - margin) ∈ coords.map (fun p => p.2.1)
      ∧ (mx.2.2 - margin) ∈ coords.map (fun p => p.2.2))
    ∧ (mn.1 + margin ≤ q.1 ∧ mn.2.1 + margin ≤ q.2.1 ∧ mn.2.2 + margin ≤ q.2.2
      ∧ q.1 ≤ mx.1 - margin ∧ q.2.1 ≤ mx.2.1 - margin ∧ q.2.2 ≤ mx.2.2 - margin)
    ∧ ((linspace mn.1 mx.1 g).length = g
      ∧ (linspace mn.1 mx.1 g).get? i = some (X i)
      ∧ (linspace mn.1 mx.1 g).get? 0 = some mn.1
      ∧ (linspace mn.1 mx.1 g).get? (g - 1) = some mx.1
      ∧ (linspace mn.2.1 mx.2.1 g).get? 0 = some mn.2.1
      ∧ (linspace mn.2.1 mx.2.1 g).get? (g - 1) = some mx.2.1
      ∧ (linspace mn.2.2 mx.2.2 g).get? 0 = some mn.2.2
      ∧ (linspace mn.2.2 mx.2.2 g).get? (g - 1) = some mx.2.2)
    ∧ (gridPoints g mn mx).length = g ^ 3
    ∧ (gridPoints g mn mx).get? ((i * g + j) * g + k) = some (X i, Y j, Z k)
    ∧ (evaluate_orbital_on_grid aoEval coeff (gridPoints g mn mx)).length = g ^ 3
    ∧ (evaluate_orbital_on_grid aoEval coeff (gridPoints g mn mx)).get?
        ((i * g + j) * g + k) = some (dotQ (aoEval (X i, Y j, Z k)) coeff) := by
  intro X Y Z
  obtain ⟨c, t, rfl⟩ := List.exists_cons_of_ne_nil hne
  have hmn : mn = ((t.map fun p => p.1).foldl min c.1 - margin,
      (t.map fun p => p.2.1).foldl min c.2.1 - margin,
      (t.map fun p => p.2.2).foldl min c.2.2 - margin) := by
    rw [hbmn]
    unfold get_grid_bounds
    simp only [foldl_min3_proj, List.foldl_map]
  have hmx : mx = ((t.map fun p => p.1).foldl max c.1 + margin,
      (t.map fun p => p.2.1).foldl max c.2.1 + margin,
      (t.map fun p => p.2.2).foldl max c.2.2 + margin) := by
    rw [hbmx]
    unfold get_grid_bounds
    simp only [foldl_max3_proj, List.foldl_map]
  have hmap : ∀ f : ℚ × ℚ × ℚ → ℚ, (c :: t).map f = f c :: t.map f := fun _ => rfl
  have hqmem : ∀ f : ℚ × ℚ × ℚ → ℚ, f q ∈ f c :: t.map f := by
    intro f
    rcases List.mem_cons.mp hq with rfl | hq2
    · exact List.mem_cons_self _ _
    · exact List.mem_cons_of_mem _ (List.mem_map_of_mem f hq2)
  have hpoints : (gridPoints g mn mx).get? ((i * g + j) * g + k) =
      some (X i, Y j, Z k) := by
    have hinner : ∀ x : ℚ,
        ((linspace mn.2.1 mx.2.1 g).flatMap fun y =>
          (linspace mn.2.2 mx.2.2 g).map fun z => (x, y, z)).length = g * g := by
      intro x
      rw [flatMap_length_const _ _ g fun y => by simp [linspace_length]]
      simp [linspace_length]
    have hjk : j * g + k < g * g := by
      calc j * g + k < j * g + g := by omega
        _ = (j + 1) * g := by ring
        _ ≤ g * g := Nat.mul_le_mul_right g (by omega)
    have hidx : (i * g + j) * g + k = i * (g * g) + (j * g + k) := by ring
    unfold gridPoints
    rw [hidx, get?_flatMap_const _ _ (g * g) hinner i (j * g + k) hjk,
      linspace_get? mn.1 mx.1 g hg i hi]
    simp only [Option.some_bind]
    rw [get?_flatMap_const _ _ g (fun y => by simp [linspace_length]) j k hk,
      linspace_get? mn.2.1 mx.2.1 g hg j hj]
    simp only [Option.some_bind]
    rw [List.get?_eq_getElem?, List.getElem?_map, ← List.get?_eq_getElem?,
      linspace_get? mn.2.2 mx.2.2 g hg k hk]
    rfl
  refine ⟨?_, ?_, ?_, gridPoints_length g mn mx, hpoints, ?_, ?_⟩
  · rw [hmn, hmx]
    refine ⟨?_, ?_, ?_, ?_, ?_, ?_⟩ <;>
      simp only [hmap, sub_add_cancel, add_sub_cancel_right] <;>
      first
        | exact (foldl_min_char _ _).1
        | exact (foldl_max_char _ _).1
  · rw [hmn, hmx]
    refine ⟨?_, ?_, ?_, ?_, ?_, ?_⟩ <;>
      simp only [sub_add_cancel, add_sub_cancel_right]
    · exact (foldl_min_char c.1 (t.map fun p => p.1)).2 q.1 (hqmem fun p => p.1)
    · exact (foldl_min_char c.2.1 (t.map fun p => p.2.1)).2 q.2.1 (hqmem fun p => p.2.1)
    · exact (foldl_min_char c.2.2 (t.map fun p => p.2.2)).2 q.2.2 (hqmem fun p => p.2.2)
    · exact (foldl_max_char c.1 (t.map fun p => p.1)).2 q.1 (hqmem fun p => p.1)
    · exact (foldl_max_char c.2.1 (t.map fun p => p.2.1)).2 q.2.1 (hqmem fun p => p.2.1)
    · exact (foldl_max_char c.2.2 (t.map fun p => p.2.2)).2 q.2.2 (hqmem fun p => p.2.2)
  · exact ⟨linspace_length mn.1 mx.1 g, linspace_get? mn.1 mx.1 g hg i hi,
      (linspace_ends mn.1 mx.1 g hg).1, (linspace_ends mn.1 mx.1 g hg).2,
      (linspace_ends mn.2.1 mx.2.1 g hg).1, (linspace_ends mn.2.1 mx.2.1 g hg).2,
      (linspace_ends mn.2.2 mx.2.2 g hg).1, (linspace_ends mn.2.2 mx.2.2 g hg).2⟩
  · rw [evaluate_length, gridPoints_length]
  · unfold evaluate_orbital_on_grid
    rw [List.get?_eq_getElem?, List.getElem?_map, ← List.get?_eq_getElem?, hpoints]
    rfl

/-- Witness for C7 at the fixture geometry, margin 1, grid size 2,
sample position `(i,j,k) = (0,1,1)` and atom `q = (0,0,1)`. -/
theorem grid_bounds_spacing_order_witness :
    (fixResult.atomCoords ≠ [] ∧ ((0 : ℚ), (0 : ℚ), (1 : ℚ)) ∈ fixResult.atomCoords)
    ∧ (let mn := (get_grid_bounds fixResult.atomCoords 1).1
       let mx := (get_grid_bounds fixResult.atomCoords 1).2
       let X : ℕ → ℚ := fun n => mn.1 + (mx.1 - mn.1) / ((2 : ℚ) - 1) * (n : ℚ)
       let Y : ℕ → ℚ := fun n => mn.2.1 + (mx.2.1 - mn.2.1) / ((2 : ℚ) - 1) * (n : ℚ)
       let Z : ℕ → ℚ := fun n => mn.2.2 + (mx.2.2 - mn.2.2) / ((2 : ℚ) - 1) * (n : ℚ)
       ((mn.1 + 1) ∈ fixResult.atomCoords.map (fun p => p.1)
         ∧ (mn.2.1 + 1) ∈ fixResult.atomCoords.map (fun p => p.2.1)
         ∧ (mn.2.2 + 1) ∈ fixResult.atomCoords.map (fun p => p.2.2)
         ∧ (mx.1 - 1) ∈ fixResult.atomCoords.map (fun p => p.1)
         ∧ (mx.2.1 - 1) ∈ fixResult.atomCoords.map (fun p => p.2.1)
         ∧ (mx.2.2 - 1) ∈ fixResult.atomCoords.map (fun p => p.2.2))
       ∧ (mn.1 + 1 ≤ 0 ∧ mn.2.1 + 1 ≤ 0 ∧ mn.2.2 + 1 ≤ 1
         ∧ (0 : ℚ) ≤ mx.1 - 1 ∧ (0 : ℚ) ≤ mx.2.1 - 1 ∧ (1 : ℚ) ≤ mx.2.2 - 1)
       ∧ ((linspace mn.1 mx.1 2).length = 2
         ∧ (linspace mn.1 mx.1 2).get? 0 = some (X 0)
         ∧ (linspace mn.1 mx.1 2).get? 0 = some mn.1
         ∧ (linspace mn.1 mx.1 2).get? (2 - 1) = some mx.1
         ∧ (linspace mn.2.1 mx.2.1 2).get? 0 = some mn.2.1
         ∧ (linspace mn.2.1 mx.2.1 2).get? (2 - 1) = some mx.2.1
         ∧ (linspace mn.2.2 mx.2.2 2).get? 0 = some mn.2.2
         ∧ (linspace mn.2.2 mx.2.2 2).get? (2 - 1) = some mx.2.2)
       ∧ (gridPoints 2 mn mx).length = 2 ^ 3
       ∧ (gridPoints 2 mn mx).get? ((0 * 2 + 1) * 2 + 1) = some (X 0, Y 1, Z 1)
       ∧ (evaluate_orbital_on_grid fixResult.aoEval (fixResult.natorbs.col 0)
           (gridPoints 2 mn mx)).length = 2 ^ 3
       ∧ (evaluate_orbital_on_grid fixResult.aoEval (fixResult.natorbs.col 0)
           (gridPoints 2 mn mx)).get? ((0 * 2 + 1) * 2 + 1) =
           some (dotQ (fixResult.aoEval (X 0, Y 1, Z 1)) (fixResult.natorbs.col 0))) :=
  ⟨⟨by simp [fixResult], by simp [fixResult]⟩,
    grid_bounds_spacing_order fixResult.atomCoords 1 2 fixResult.aoEval
      (fixResult.natorbs.col 0) ((0 : ℚ), (0 : ℚ), (1 : ℚ)) 0 1 1
      (by simp [fixResult]) (by omega) (by simp [fixResult])
      (by omega) (by omega) (by omega)
      (get_grid_bounds fixResult.atomCoords 1).1
      (get_grid_bounds fixResult.atomCoords 1).2 rfl rfl⟩

end OrbitalViz
